import Mathlib

/-!
Shallow embedding of the chess-analyzer decision engine.

The repository's core (server routes `game.ts`/`analysis.ts`, services
`stockfishEngine.ts` and `dataService.ts`) is translated into executable Lean
definitions.  The external rules oracle (the `chess.js` library) is modelled as
a record of functions (`Oracle` below): the core is a pure consumer of that
interface, exactly as in the source, so every theorem is parametric in the
oracle (concrete toy oracles instantiate it for witnesses/counterexamples).
JavaScript's unseeded `Math.random()` is modelled by explicit rational draw
parameters in `[0,1)`; machine numbers are `Int`/`Rat` (the source's arithmetic
on scores stays well inside double precision, and the perturbation arithmetic
is exact rational arithmetic on the literals appearing in the source).
-/

/-- A board square occupant as returned by `chess.get` / `chess.board()`:
a color `'w'`/`'b'` and a lowercase piece type letter. -/
structure Piece where
  color : Char
  ptype : Char
deriving DecidableEq, Repr

/-- A verbose legal move as enumerated by `chess.moves({ verbose: true })`.
`from`/`to` are renamed `fromSq`/`toSq` because `from` is a Lean keyword. -/
structure VMove where
  fromSq : String
  toSq : String
  san : String
  promotion : Option String := none
deriving DecidableEq, Repr

/-- The move payload of `POST /api/game/move` (`{from, to, promotion?}`). -/
structure MoveReq where
  fromSq : String
  toSq : String
  promotion : Option String := none
deriving DecidableEq, Repr

/-- The record returned by `EnhancedChessEngineService.getStockfishMove`. -/
structure BotMove where
  fromSq : String
  toSq : String
  san : String
  fen : String
  promotion : Option String := none
deriving DecidableEq, Repr

/-- The rules oracle: the subset of the `chess.js` interface consumed by the
core.  Each field is the oracle's answer about a FEN string.  `boardGrid` is
`chess.board()` (rows of optional pieces), `pieceAt` is `chess.get(square)`,
`tryMove` is `chess.move({from,to,promotion})` returning the played move and
the resulting FEN (or `none` when the move is rejected), `applyFen` is the FEN
after playing an enumerated verbose move. -/
structure Oracle where
  legalMoves : String → List VMove
  applyFen : String → VMove → String
  tryMove : String → MoveReq → Option (VMove × String)
  isCheckmate : String → Bool
  isStalemate : String → Bool
  isDraw : String → Bool
  turn : String → Char
  boardGrid : String → List (List (Option Piece))
  pieceAt : String → String → Option Piece

/-- `chess.isGameOver()`: checkmate, stalemate or draw (chess.js semantics). -/
def Oracle.isGameOver (o : Oracle) (fen : String) : Bool :=
  o.isCheckmate fen || o.isStalemate fen || o.isDraw fen

/-- Game status enum of the `ChessGame` shared type. -/
inductive GameStatus
  | active
  | checkmate
  | stalemate
  | draw
  | resignation
deriving DecidableEq, Repr

/-- Terminal statuses are exactly the non-`active` ones. -/
def GameStatus.isTerminal : GameStatus → Bool
  | .active => false
  | _ => true

/-- Difficulty values accepted by `validateGameSettings`. -/
inductive Difficulty
  | beginner
  | intermediate
  | advanced
  | stockfish
deriving DecidableEq, Repr

/-- `game.currentPosition` (`{fen, turn}`). -/
structure GamePosition where
  fen : String
  turn : String
deriving DecidableEq, Repr

/-- One entry of the `game.moves` log (a `ChessMove` of the shared API). -/
structure ChessMove where
  fromSq : String
  toSq : String
  san : String
  fen : String
  timestamp : String
  isPlayerMove : Bool
deriving DecidableEq, Repr

/-- The `GameSettings` shared type (time control flattened to two integers). -/
structure GameSettings where
  timeInitial : Int
  timeIncrement : Int
  difficulty : Difficulty
  color : String
deriving DecidableEq, Repr

/-- The `ChessGame` shared type: one game session. -/
structure ChessGame where
  id : String
  playerColor : String
  currentPosition : GamePosition
  moves : List ChessMove
  status : GameStatus
  settings : GameSettings
  startTime : String
  endTime : Option String := none
  result : Option String := none
deriving DecidableEq, Repr

/-- The `UserStats` shared type held by `DataService`. -/
structure UserStats where
  totalAnalyses : Nat
  totalGames : Nat
  gamesWon : Nat
  gamesLost : Nat
  gamesDrawn : Nat
  currentRating : Int
  favoriteOpenings : List String
deriving DecidableEq, Repr

/-- `DataService.saveGame` (dataService.ts): stores the game and, when the
game's status is no longer `active`, updates the aggregate statistics —
win/draw/loss is decided from the stored `result` and `playerColor`, the
rating moves by +20 / +5 / −15 and is then clamped to `[800, 2400]` by
`Math.max(800, Math.min(2400, rating))`.  Only the statistics update is
modelled (the `games` map write carries no claim content). -/
def saveGameStats (g : ChessGame) (s : UserStats) : UserStats :=
  if g.status = GameStatus.active then s
  else
    let s1 := { s with totalGames := s.totalGames + 1 }
    let s2 :=
      if g.result = some "1-0" ∧ g.playerColor = "white" then
        { s1 with gamesWon := s1.gamesWon + 1, currentRating := s1.currentRating + 20 }
      else if g.result = some "0-1" ∧ g.playerColor = "black" then
        { s1 with gamesWon := s1.gamesWon + 1, currentRating := s1.currentRating + 20 }
      else if g.result = some "1/2-1/2" then
        { s1 with gamesDrawn := s1.gamesDrawn + 1, currentRating := s1.currentRating + 5 }
      else
        { s1 with gamesLost := s1.gamesLost + 1, currentRating := s1.currentRating - 15 }
    { s2 with currentRating := max 800 (min 2400 s2.currentRating) }

/-- The clamp applied by `saveGame` after every rating change. -/
def clampRating (r : Int) : Int := max 800 (min 2400 r)

/-- Spec-side classification: the stored result is a win for the player. -/
def playerWon (g : ChessGame) : Prop :=
  (g.result = some "1-0" ∧ g.playerColor = "white") ∨
  (g.result = some "0-1" ∧ g.playerColor = "black")

/-- Spec-side classification: the stored result is a draw. -/
def playerDrew (g : ChessGame) : Prop := g.result = some "1/2-1/2"

instance (g : ChessGame) : Decidable (playerWon g) := by
  unfold playerWon; infer_instance

instance (g : ChessGame) : Decidable (playerDrew g) := by
  unfold playerDrew; infer_instance

/-- The rating delta applied by `saveGame`'s branch chain. -/
def ratingDelta (g : ChessGame) : Int :=
  if g.result = some "1-0" ∧ g.playerColor = "white" then 20
  else if g.result = some "0-1" ∧ g.playerColor = "black" then 20
  else if g.result = some "1/2-1/2" then 5
  else -15

lemma saveGameStats_rating (g : ChessGame) (s : UserStats)
    (h : g.status ≠ GameStatus.active) :
    (saveGameStats g s).currentRating = clampRating (s.currentRating + ratingDelta g) := by
  unfold saveGameStats clampRating ratingDelta
  rw [if_neg h]
  by_cases h1 : g.result = some "1-0" ∧ g.playerColor = "white"
  · simp [h1]
  · by_cases h2 : g.result = some "0-1" ∧ g.playerColor = "black"
    · simp [h1, h2]
    · by_cases h3 : g.result = some "1/2-1/2"
      · simp [h1, h2, h3]
      · simp [h1, h2, h3]; ring_nf

lemma clampRating_bounds (r : Int) : 800 ≤ clampRating r ∧ clampRating r ≤ 2400 := by
  unfold clampRating; omega

lemma saveGameStats_rating_bounds (g : ChessGame) (s : UserStats)
    (hlo : 800 ≤ s.currentRating) (hhi : s.currentRating ≤ 2400) :
    800 ≤ (saveGameStats g s).currentRating ∧ (saveGameStats g s).currentRating ≤ 2400 := by
  by_cases h : g.status = GameStatus.active
  · unfold saveGameStats; rw [if_pos h]; exact ⟨hlo, hhi⟩
  · rw [saveGameStats_rating g s h]; exact clampRating_bounds _

lemma foldl_saveGameStats_bounds (gs : List ChessGame) (s : UserStats)
    (hlo : 800 ≤ s.currentRating) (hhi : s.currentRating ≤ 2400) :
    800 ≤ (gs.foldl (fun st g => saveGameStats g st) s).currentRating ∧
      (gs.foldl (fun st g => saveGameStats g st) s).currentRating ≤ 2400 := by
  induction gs generalizing s with
  | nil => exact ⟨hlo, hhi⟩
  | cons g rest ih =>
      have hb := saveGameStats_rating_bounds g s hlo hhi
      exact ih (saveGameStats g s) hb.1 hb.2

/-- C1: when a session is saved after leaving `active`, the rating update adds
+20 for a player win, +5 for a draw and −15 for a loss — win/draw/loss read
from the stored result and the player's recorded side — and the result is
clamped to `[800, 2400]`; consequently any sequence of updates starting inside
the bounds stays inside them. -/
theorem c1_rating_update (g : ChessGame) (s : UserStats)
    (h : g.status ≠ GameStatus.active) :
    (saveGameStats g s).currentRating = clampRating (s.currentRating + ratingDelta g)
    ∧ (playerWon g → ratingDelta g = 20)
    ∧ (playerDrew g → ratingDelta g = 5)
    ∧ (¬ playerWon g → ¬ playerDrew g → ratingDelta g = -15)
    ∧ 800 ≤ (saveGameStats g s).currentRating
    ∧ (saveGameStats g s).currentRating ≤ 2400
    ∧ (∀ (gs : List ChessGame) (s0 : UserStats),
        800 ≤ s0.currentRating → s0.currentRating ≤ 2400 →
        800 ≤ (gs.foldl (fun st gg => saveGameStats gg st) s0).currentRating ∧
          (gs.foldl (fun st gg => saveGameStats gg st) s0).currentRating ≤ 2400) := by
  refine ⟨saveGameStats_rating g s h, ?_, ?_, ?_, ?_, ?_, ?_⟩
  · intro hw
    unfold ratingDelta
    rcases hw with h1 | h2
    · simp [h1]
    · by_cases hfirst : g.result = some "1-0" ∧ g.playerColor = "white"
      · simp [hfirst]
      · simp [hfirst, h2]
  · intro hd
    unfold playerDrew at hd
    unfold ratingDelta
    have h1 : ¬ (g.result = some "1-0" ∧ g.playerColor = "white") := by
      rintro ⟨hr, -⟩; rw [hd] at hr; simp at hr
    have h2 : ¬ (g.result = some "0-1" ∧ g.playerColor = "black") := by
      rintro ⟨hr, -⟩; rw [hd] at hr; simp at hr
    simp [h1, h2, hd]
  · intro hw hd
    unfold playerWon at hw
    unfold playerDrew at hd
    push_neg at hw
    unfold ratingDelta
    by_cases h1 : g.result = some "1-0" ∧ g.playerColor = "white"
    · exact absurd h1 (by rintro ⟨a, b⟩; exact hw.1 a b |>.elim)
    · by_cases h2 : g.result = some "0-1" ∧ g.playerColor = "black"
      · exact absurd h2 (by rintro ⟨a, b⟩; exact hw.2 a b |>.elim)
      · simp [h1, h2, hd]
  · rw [saveGameStats_rating g s h]; exact (clampRating_bounds _).1
  · rw [saveGameStats_rating g s h]; exact (clampRating_bounds _).2
  · intro gs s0 hlo hhi; exact foldl_saveGameStats_bounds gs s0 hlo hhi

/-- A concrete finished game: player was white and the result is a win. -/
def wonGame : ChessGame :=
  { id := "g1"
    playerColor := "white"
    currentPosition := { fen := "f", turn := "b" }
    moves := []
    status := GameStatus.checkmate
    settings := { timeInitial := 300, timeIncrement := 0,
                  difficulty := Difficulty.beginner, color := "white" }
    startTime := "t0"
    endTime := some "t1"
    result := some "1-0" }

/-- A concrete `UserStats` value at the initial rating 1200. -/
def statsAt1200 : UserStats :=
  { totalAnalyses := 0, totalGames := 0, gamesWon := 0, gamesLost := 0
    gamesDrawn := 0, currentRating := 1200, favoriteOpenings := [] }

theorem c1_rating_update_witness :
    (saveGameStats wonGame statsAt1200).currentRating =
        clampRating (statsAt1200.currentRating + ratingDelta wonGame)
    ∧ (playerWon wonGame → ratingDelta wonGame = 20)
    ∧ (playerDrew wonGame → ratingDelta wonGame = 5)
    ∧ (¬ playerWon wonGame → ¬ playerDrew wonGame → ratingDelta wonGame = -15)
    ∧ 800 ≤ (saveGameStats wonGame statsAt1200).currentRating
    ∧ (saveGameStats wonGame statsAt1200).currentRating ≤ 2400
    ∧ (∀ (gs : List ChessGame) (s0 : UserStats),
        800 ≤ s0.currentRating → s0.currentRating ≤ 2400 →
        800 ≤ (gs.foldl (fun st gg => saveGameStats gg st) s0).currentRating ∧
          (gs.foldl (fun st gg => saveGameStats gg st) s0).currentRating ≤ 2400) :=
  c1_rating_update wonGame statsAt1200 (by decide)

/-- JavaScript numbers as used by the search accumulators: the source seeds
`bestScore`/`maxScore` with `-Infinity`, so scores live in `Int ∪ {±∞}`. -/
inductive JsNum
  | negInf
  | posInf
  | num (z : Int)
deriving DecidableEq, Repr

/-- JS unary minus on a score (`-Infinity` negates to `Infinity`). -/
def JsNum.neg : JsNum → JsNum
  | .negInf => .posInf
  | .posInf => .negInf
  | .num z => .num (-z)

/-- JS `<` on scores (no NaN arises in the embedded code paths). -/
def JsNum.blt : JsNum → JsNum → Bool
  | .negInf, .negInf => false
  | .negInf, _ => true
  | .posInf, _ => false
  | .num _, .posInf => true
  | .num _, .negInf => false
  | .num a, .num b => a < b

/-- JS `Math.max` on scores. -/
def JsNum.jmax (a b : JsNum) : JsNum := if JsNum.blt a b then b else a

/-- `Math.floor(r * n)` for an index draw `r` from `Math.random()`. -/
def pickIdx (r : Rat) (n : Nat) : Nat := (Int.floor (r * n)).toNat

/-- JS `Math.round` (round half up). -/
def jsRound (q : Rat) : Int := Int.floor (q + 1/2)

/-- Two-digit rendering of the cent part for `toFixed(2)`. -/
def twoDigits (n : Nat) : String := (if n < 10 then "0" else "") ++ toString n

/-- `(z / 100).toFixed(2)` for an integer centipawn value `z`: the quotient has
exactly two decimal places, so the rendering is exact. -/
def toFixed2cent (z : Int) : String :=
  (if z < 0 then "-" else "") ++ toString (z.natAbs / 100) ++ "." ++ twoDigits (z.natAbs % 100)

/-- Centipawn formatting of `calculateStockfishEvaluation`: explicit `+` only
for strictly positive values. -/
def formatCp (z : Int) : String :=
  if 0 < z then "+" ++ toFixed2cent z else toFixed2cent z

/-- First-occurrence string replacement, the semantics of JS
`String.prototype.replace` with a string pattern, on character lists. -/
def replaceFirstL (s pat rep : List Char) : List Char :=
  if pat.isPrefixOf s then rep ++ s.drop pat.length
  else
    match s with
    | [] => []
    | c :: cs => c :: replaceFirstL cs pat rep

/-- JS `s.replace(pat, rep)` (first occurrence only). -/
def jsReplace (s pat rep : String) : String :=
  String.mk (replaceFirstL s.toList pat.toList rep.toList)

/-- JS `s.includes(pat)`. -/
def containsSubL (s pat : List Char) : Bool :=
  pat.isPrefixOf s ||
    match s with
    | [] => false
    | _ :: cs => containsSubL cs pat

/-- JS `s.includes(pat)` on strings. -/
def jsIncludes (s pat : String) : Bool := containsSubL s.toList pat.toList

/-- `fen.split(' ')[1]`: the turn field of a FEN string. -/
def turnOfFen (fen : String) : String := (fen.splitOn " ").getD 1 ""

/-- `String.fromCharCode(97 + col) + (8 - row)` of `findKing`. -/
def squareName (col row : Nat) : String :=
  String.mk [Char.ofNat (97 + col), Char.ofNat (48 + (8 - row))]

/-- `StockfishEngine.evaluateMaterial`: per-piece table values summed with
sign by color over `chess.board()`. -/
def pieceValue (t : Char) : Int :=
  if t = 'p' then 100 else if t = 'n' then 320 else if t = 'b' then 330
  else if t = 'r' then 500 else if t = 'q' then 900 else 0

/-- `StockfishEngine.evaluateMaterial`. -/
def evaluateMaterial (o : Oracle) (fen : String) : Int :=
  (o.boardGrid fen).foldl
    (fun acc row =>
      row.foldl
        (fun a sq =>
          match sq with
          | some p => a + (if p.color = 'w' then pieceValue p.ptype else -(pieceValue p.ptype))
          | none => a)
        acc)
    0

/-- The development squares of `countDevelopedPieces` (white side). -/
def whiteDevSquares : List String :=
  ["c3", "d2", "e2", "f3", "g3", "c4", "d3", "e3", "f4", "g4"]

/-- The development squares of `countDevelopedPieces` (black side). -/
def blackDevSquares : List String :=
  ["c6", "d7", "e7", "f6", "g6", "c5", "d6", "e6", "f5", "g5"]

/-- Count of developed knights/bishops of one color on the given squares. -/
def countDevList (o : Oracle) (fen : String) (squares : List String) (c : Char) : Nat :=
  (squares.filter (fun sq =>
    match o.pieceAt fen sq with
    | some p => p.color == c && (p.ptype == 'n' || p.ptype == 'b')
    | none => false)).length

/-- `StockfishEngine.countDevelopedPieces`. -/
def countDevelopedPieces (o : Oracle) (fen : String) : Nat × Nat :=
  (countDevList o fen whiteDevSquares 'w', countDevList o fen blackDevSquares 'b')

/-- `StockfishEngine.evaluatePosition`: center-control bonus plus the
development bonus, the latter only while `chess.history().length < 10`.
`histLen` is the history length of the instance at the call: 0 for an
instance freshly constructed from a FEN, and the number of moves played since
construction inside `calculateBestMove`/`evaluateQuick`. -/
def evaluatePositionScore (o : Oracle) (histLen : Nat) (fen : String) : Int :=
  let center := (["d4", "d5", "e4", "e5"] : List String).foldl
    (fun acc sq =>
      match o.pieceAt fen sq with
      | some p => acc + (if p.color = 'w' then 20 else -20)
      | none => acc)
    0
  let dev :=
    if histLen < 10 then
      let counts := countDevelopedPieces o fen
      (counts.1 : Int) * 10 - (counts.2 : Int) * 10
    else 0
  center + dev

/-- Inner row scan of `findKing`: first column holding the king of color `c`. -/
def kingCol (row : List (Option Piece)) (c : Char) : Option Nat :=
  row.findIdx? (fun sq =>
    match sq with
    | some p => p.ptype == 'k' && p.color == c
    | none => false)

/-- Row recursion of `findKing` over `chess.board()`. -/
def findKingAux (c : Char) : List (List (Option Piece)) → Nat → Option String
  | [], _ => none
  | r :: rs, row =>
    match kingCol r c with
    | some col => some (squareName col row)
    | none => findKingAux c rs (row + 1)

/-- `StockfishEngine.findKing`. -/
def findKing (o : Oracle) (fen : String) (c : Char) : Option String :=
  findKingAux c (o.boardGrid fen) 0

/-- `StockfishEngine.countAttackers`: legal moves of the side to move that
land on `sq` and originate from a piece of `attackerColor`. -/
def countAttackers (o : Oracle) (fen : String) (sq : String) (attackerColor : Char) : Nat :=
  ((o.legalMoves fen).filter (fun m =>
    m.toSq == sq &&
      match o.pieceAt fen m.fromSq with
      | some p => p.color == attackerColor
      | none => false)).length

/-- `StockfishEngine.evaluateKingSafety`. -/
def evaluateKingSafety (o : Oracle) (fen : String) : Int :=
  match findKing o fen 'w', findKing o fen 'b' with
  | some wk, some bk =>
      -(15 * (countAttackers o fen wk 'b' : Int)) + 15 * (countAttackers o fen bk 'w' : Int)
  | _, _ => 0

/-- The FEN flip attempted by `evaluateMobility`:
`chess.fen().replace(' w ', ' b ').replace(' b ', ' w ')`. -/
def flipFen (fen : String) : String :=
  jsReplace (jsReplace fen " w " " b ") " b " " w "

/-- `StockfishEngine.evaluateMobility`: the side-to-move's move count on the
given FEN minus the move count after the (attempted) turn flip, times 2. -/
def evaluateMobility (o : Oracle) (fen : String) : Int :=
  (((o.legalMoves fen).length : Int) - ((o.legalMoves (flipFen fen)).length : Int)) * 2

/-- The `Evaluation` sum type of the shared API: a centipawn score or a
mate indicator, each with its formatted rendering — never both. -/
inductive Evaluation
  | cp (value : Int) (formatted : String)
  | mate (value : Int) (formatted : String)
deriving DecidableEq, Repr

/-- Whether an evaluation is mate-tagged. -/
def Evaluation.isMateEval : Evaluation → Bool
  | .mate _ _ => true
  | _ => false

/-- Whether an evaluation is centipawn-tagged. -/
def Evaluation.isCpEval : Evaluation → Bool
  | .cp _ _ => true
  | _ => false

/-- `StockfishEngine.calculateStockfishEvaluation`.  `rand` is the value drawn
from the global `Math.random()` during this call; `depth` scales the bounded
perturbation through `accuracy = min(depth / 20, 1)`.  The sub-scores run on
a `Chess` instance freshly constructed from `fen` (history length 0), but
`evaluateMobility` ends with `chess.load` of the turn-flipped FEN and never
restores the original, so the `isGameOver`/`isCheckmate`/`turn` checks that
follow run on `flipFen fen` — the identity for white-to-move FENs, the
white-to-move mirror for black-to-move FENs. -/
def calculateStockfishEvaluation (o : Oracle) (fen : String) (depth : Nat) (rand : Rat) :
    Evaluation :=
  let base : Int := evaluateMaterial o fen + evaluatePositionScore o 0 fen
    + evaluateKingSafety o fen + evaluateMobility o fen
  let accuracy : Rat := min ((depth : Rat) / 20) 1
  let value : Rat := (base : Rat) + (rand - 1/2) * 100 * (1 - accuracy)
  let evaluation : Int := jsRound value
  let postFen := flipFen fen
  if o.isGameOver postFen then
    if o.isCheckmate postFen then
      if o.turn postFen = 'w' then Evaluation.mate (-1) "M-1" else Evaluation.mate 1 "M1"
    else Evaluation.cp 0 "0.00"
  else Evaluation.cp evaluation (formatCp evaluation)

/-- Fold of `evaluateQuick`'s candidate loop: `Math.max` of the negated
recursive scores, seeded with `-Infinity`. -/
def maxNegScores (f : String → JsNum) (o : Oracle) (fen : String) (ms : List VMove) : JsNum :=
  ms.foldl (fun acc m => JsNum.jmax acc (JsNum.neg (f (o.applyFen fen m)))) JsNum.negInf

/-- `StockfishEngine.evaluateQuick`: leaf material+position score at depth 0
or on terminal positions, otherwise negate-and-maximize over the first three
candidate moves.  `histLen` tracks `chess.history().length` — each recursive
step plays one more move on the shared instance before recursing. -/
def evaluateQuick (o : Oracle) : Nat → Nat → String → JsNum
  | 0, histLen, fen => JsNum.num (evaluateMaterial o fen + evaluatePositionScore o histLen fen)
  | d + 1, histLen, fen =>
    if o.isGameOver fen then
      JsNum.num (evaluateMaterial o fen + evaluatePositionScore o histLen fen)
    else
      maxNegScores (evaluateQuick o d (histLen + 1)) o fen ((o.legalMoves fen).take 3)

/-- `StockfishEngine.calculateBestMove`: over the first ten legal moves, keep
the candidate whose `evaluateQuick` score strictly exceeds the best so far
(seeded with `-Infinity`, initial candidate `moves[0]`); with no legal moves
return the `'No legal moves'` sentinel.  Each candidate is scored after one
move is played on the fresh instance, so `evaluateQuick` starts at history
length 1. -/
def calculateBestMove (o : Oracle) (fen : String) (depth : Nat) : VMove :=
  match o.legalMoves fen with
  | [] => { fromSq := "", toSq := "", san := "No legal moves" }
  | m :: ms =>
    let step := fun (acc : VMove × JsNum) (mv : VMove) =>
      let score := evaluateQuick o depth 1 (o.applyFen fen mv)
      if JsNum.blt acc.2 score then (mv, score) else acc
    (((m :: ms).take 10).foldl step (m, JsNum.negInf)).1

/-- Continuation loop of `calculatePrincipalVariation`: at each of the
remaining plies, stop if no legal move exists, otherwise play the move at
index `Math.floor(Math.random() * Math.min(3, moves.length))`.  `rand k` is
the `k`-th draw of the loop. -/
def pvExtend (o : Oracle) (rand : Nat → Rat) : Nat → Nat → String → List String
  | _, 0, _ => []
  | k, n + 1, fen =>
    match o.legalMoves fen with
    | [] => []
    | m :: ms =>
      let nm := ((m :: ms).get? (pickIdx (rand k) (min 3 (m :: ms).length))).getD m
      nm.san :: pvExtend o rand (k + 1) n (o.applyFen fen nm)

/-- `StockfishEngine.calculatePrincipalVariation`: the chosen best move's SAN
followed by up to `depth - 1` further plies of the random continuation. -/
def calculatePrincipalVariation (o : Oracle) (rand : Nat → Rat) (fen : String)
    (best : VMove) (depth : Nat) : List String :=
  best.san :: pvExtend o rand 0 (depth - 1) (o.applyFen fen best)

/-- The analysis record produced by `StockfishEngine.analyzePosition` (the
`nodes`/`time`/`nps` fields are independent random literals touched by no
claim and are omitted). -/
structure StockfishResult where
  depth : Nat
  evaluation : Evaluation
  bestMove : VMove
  principalVariation : List String
deriving DecidableEq, Repr

/-- `StockfishEngine.analyzePosition`: evaluation (one `Math.random()` draw,
`rand 0`), best move, and the principal variation computed with the
hard-coded ply bound 3 (draws `rand 1`, `rand 2`, ...). -/
def analyzePosition (o : Oracle) (rand : Nat → Rat) (fen : String) (depth : Nat) :
    StockfishResult :=
  let bestMove := calculateBestMove o fen depth
  { depth := depth
    evaluation := calculateStockfishEvaluation o fen depth (rand 0)
    bestMove := bestMove
    principalVariation :=
      calculatePrincipalVariation o (fun k => rand (k + 1)) fen bestMove 3 }

/-- `EnhancedChessEngineService.getStockfishMove`: enumerate legal moves (null
on none); select per difficulty tier — `stockfish`/`advanced` take the nested
analysis' best move (fallback `moves[0]`), `intermediate` takes it with
probability 0.7 and otherwise a random one of the first three moves,
`beginner` takes it with probability 0.3 and otherwise a uniformly random
move — then play the selected move and return it with the resulting FEN.
`r1` models the branch draw (`Math.random() < 0.7` / `< 0.3`) and `r2` the
index draw; `rand` feeds the nested `analyzePosition` calls. -/
def getStockfishMove (o : Oracle) (rand : Nat → Rat) (r1 r2 : Rat) (fen : String)
    (difficulty : Difficulty) : Option BotMove :=
  match o.legalMoves fen with
  | [] => none
  | m :: ms =>
    let moves := m :: ms
    let selected : VMove :=
      match difficulty with
      | .stockfish =>
        let ab := (analyzePosition o rand fen 18).bestMove
        ((moves.find? (fun mv => mv.fromSq == ab.fromSq && mv.toSq == ab.toSq)).getD m)
      | .advanced =>
        let ab := (analyzePosition o rand fen 12).bestMove
        ((moves.find? (fun mv => mv.fromSq == ab.fromSq && mv.toSq == ab.toSq)).getD m)
      | .intermediate =>
        let ab := (analyzePosition o rand fen 8).bestMove
        let topMoves := moves.take 3
        if r1 < (7 : Rat) / 10 then
          ((moves.find? (fun mv => mv.fromSq == ab.fromSq && mv.toSq == ab.toSq)).getD
            (topMoves.headD m))
        else
          ((topMoves.get? (pickIdx r2 topMoves.length)).getD m)
      | .beginner =>
        if r1 < (3 : Rat) / 10 then
          let ab := (analyzePosition o rand fen 4).bestMove
          ((moves.find? (fun mv => mv.fromSq == ab.fromSq && mv.toSq == ab.toSq)).getD m)
        else
          ((moves.get? (pickIdx r2 moves.length)).getD m)
    some { fromSq := selected.fromSq, toSq := selected.toSq, san := selected.san
           fen := o.applyFen fen selected, promotion := selected.promotion }

/-- `getGameStatus` (identical in both engine services): `'0-1'`/`'1-0'` for
checkmate by side to move, `'1/2-1/2'` for stalemate or draw, else
`'active'`. -/
def getGameStatus (o : Oracle) (fen : String) : String :=
  if o.isCheckmate fen then (if o.turn fen = 'w' then "0-1" else "1-0")
  else if o.isStalemate fen || o.isDraw fen then "1/2-1/2"
  else "active"

/-- The response of `POST /api/game/move` (success flag, error message,
optional bot move entry; the updated game is returned alongside). -/
structure MakeMoveResp where
  success : Bool
  error : Option String := none
  botMove : Option ChessMove := none
deriving DecidableEq, Repr

/-- Continuation of the `makeMove` route handler after the status check and
the legality check have passed: append the player's move, re-check terminal
status, and (when the game continues) compute and apply the bot's reply. -/
def applyLegalMove (o : Oracle) (rand : Nat → Rat) (r1 r2 : Rat) (now : String)
    (game : ChessGame) (vm : VMove) (newFen : String) : MakeMoveResp × ChessGame :=
      let pEntry : ChessMove :=
        { fromSq := vm.fromSq, toSq := vm.toSq, san := vm.san, fen := newFen
          timestamp := now, isPlayerMove := true }
      let g1 := { game with
        moves := game.moves ++ [pEntry]
        currentPosition := { fen := newFen, turn := turnOfFen newFen } }
      if o.isGameOver newFen then
        let g2 := { g1 with
          status :=
            if o.isCheckmate newFen then GameStatus.checkmate
            else if o.isStalemate newFen then GameStatus.stalemate
            else GameStatus.draw
          endTime := some now
          result := some (getGameStatus o newFen) }
        ({ success := true }, g2)
      else
        match getStockfishMove o rand r1 r2 newFen game.settings.difficulty with
        | none => ({ success := true }, g1)
        | some bm =>
          let bEntry : ChessMove :=
            { fromSq := bm.fromSq, toSq := bm.toSq, san := bm.san, fen := bm.fen
              timestamp := now, isPlayerMove := false }
          let g2 := { g1 with
            moves := g1.moves ++ [bEntry]
            currentPosition := { fen := bm.fen, turn := turnOfFen bm.fen } }
          let gs := getGameStatus o bm.fen
          let g3 :=
            if gs ≠ "active" then
              { g2 with
                status := if jsIncludes gs "1/2" then GameStatus.draw else GameStatus.checkmate
                endTime := some now
                result := some gs }
            else g2
          ({ success := true, botMove := some bEntry }, g3)

/-- The `makeMove` route handler (routes/game.ts) on a fetched game, from the
`status` check onward.  The source first calls `isLegalMove` and then
`makeMove` on the same FEN and move; both run `chess.move` on that FEN, so the
deterministic pair is modelled by a single `tryMove` match.  `now` stands for
`new Date().toISOString()`. -/
def makeMoveRoute (o : Oracle) (rand : Nat → Rat) (r1 r2 : Rat) (now : String)
    (game : ChessGame) (req : MoveReq) : MakeMoveResp × ChessGame :=
  if game.status ≠ GameStatus.active then
    ({ success := false, error := some "Game is not active" }, game)
  else
    match o.tryMove game.currentPosition.fen req with
    | none => ({ success := false, error := some "Illegal move" }, game)
    | some (vm, newFen) => applyLegalMove o rand r1 r2 now game vm newFen

/-- The `resignGame` route handler (routes/game.ts) on a fetched game, from
the `status` check onward. -/
def resignGameRoute (now : String) (game : ChessGame) : MakeMoveResp × ChessGame :=
  if game.status ≠ GameStatus.active then
    ({ success := false, error := some "Game is not active" }, game)
  else
    ({ success := true },
      { game with
        status := GameStatus.resignation
        endTime := some now
        result := some (if game.playerColor = "white" then "0-1" else "1-0") })

lemma find_getD_mem (p : VMove → Bool) (l : List VMove) (d : VMove) (hd : d ∈ l) :
    (l.find? p).getD d ∈ l := by
  cases h : l.find? p with
  | none => simpa using hd
  | some x => simpa using List.mem_of_find?_eq_some h

lemma get?_getD_mem (l : List VMove) (i : Nat) (d : VMove) (hd : d ∈ l) :
    (l.get? i).getD d ∈ l := by
  cases h : l.get? i with
  | none => simpa using hd
  | some x => simpa using List.get?_mem h

lemma take_get?_getD_mem (l : List VMove) (n i : Nat) (d : VMove) (hd : d ∈ l) :
    ((l.take n).get? i).getD d ∈ l := by
  cases h : (l.take n).get? i with
  | none => simpa using hd
  | some x => exact List.take_subset n l (by simpa using List.get?_mem h)

/-- Whatever the difficulty tier and the random draws, `getStockfishMove`
selects a member of the oracle's legal-move enumeration and plays it. -/
lemma getStockfishMove_selects (o : Oracle) (rand : Nat → Rat) (r1 r2 : Rat) (fen : String)
    (tier : Difficulty) (m : VMove) (ms : List VMove) (hmoves : o.legalMoves fen = m :: ms) :
    ∃ sel, sel ∈ o.legalMoves fen ∧
      getStockfishMove o rand r1 r2 fen tier =
        some { fromSq := sel.fromSq, toSq := sel.toSq, san := sel.san
               fen := o.applyFen fen sel, promotion := sel.promotion } := by
  rw [hmoves]
  unfold getStockfishMove
  rw [hmoves]
  cases tier with
  | stockfish =>
      exact ⟨_, find_getD_mem _ _ _ (List.mem_cons_self m ms), rfl⟩
  | advanced =>
      exact ⟨_, find_getD_mem _ _ _ (List.mem_cons_self m ms), rfl⟩
  | intermediate =>
      by_cases hr : r1 < (7 : Rat) / 10
      · have hhead : ((m :: ms).take 3).headD m = m := rfl
        simp only [if_pos hr, hhead]
        exact ⟨_, find_getD_mem _ _ _ (List.mem_cons_self m ms), rfl⟩
      · simp only [if_neg hr]
        exact ⟨_, take_get?_getD_mem _ _ _ _ (List.mem_cons_self m ms), rfl⟩
  | beginner =>
      by_cases hr : r1 < (3 : Rat) / 10
      · simp only [if_pos hr]
        exact ⟨_, find_getD_mem _ _ _ (List.mem_cons_self m ms), rfl⟩
      · simp only [if_neg hr]
        exact ⟨_, get?_getD_mem _ _ _ (List.mem_cons_self m ms), rfl⟩

/-- C2: for every position with at least one legal move and every difficulty
tier, the bot move selection returns a move drawn from the rules oracle's
legal-move enumeration for that position — never an illegal move. -/
theorem c2_bot_move_legal (o : Oracle) (rand : Nat → Rat) (r1 r2 : Rat) (fen : String)
    (tier : Difficulty) (h : o.legalMoves fen ≠ []) :
    ∃ sel, sel ∈ o.legalMoves fen ∧
      getStockfishMove o rand r1 r2 fen tier =
        some { fromSq := sel.fromSq, toSq := sel.toSq, san := sel.san
               fen := o.applyFen fen sel, promotion := sel.promotion } := by
  obtain ⟨m, ms, hmoves⟩ := List.exists_cons_of_ne_nil h
  exact getStockfishMove_selects o rand r1 r2 fen tier m ms hmoves

/-- A single legal move used by the toy oracles. -/
def mv0 : VMove := { fromSq := "e2", toSq := "e4", san := "e4" }

/-- A toy rules oracle: every position has exactly the one legal move `mv0`
and playing any move leads back to the FEN `"F"`; nothing is terminal. -/
def cycleOracle : Oracle :=
  { legalMoves := fun _ => [mv0]
    applyFen := fun _ _ => "F"
    tryMove := fun _ _ => none
    isCheckmate := fun _ => false
    isStalemate := fun _ => false
    isDraw := fun _ => false
    turn := fun _ => 'w'
    boardGrid := fun _ => []
    pieceAt := fun _ _ => none }

theorem c2_bot_move_legal_witness :
    ∃ sel, sel ∈ cycleOracle.legalMoves "F" ∧
      getStockfishMove cycleOracle (fun _ => 0) 0 0 "F" Difficulty.beginner =
        some { fromSq := sel.fromSq, toSq := sel.toSq, san := sel.san
               fen := cycleOracle.applyFen "F" sel, promotion := sel.promotion } :=
  c2_bot_move_legal cycleOracle (fun _ => 0) 0 0 "F" Difficulty.beginner (by decide)

/-- A toy oracle whose every position is a checkmate with White to move. -/
def mateOracle : Oracle :=
  { legalMoves := fun _ => []
    applyFen := fun _ _ => ""
    tryMove := fun _ _ => none
    isCheckmate := fun _ => true
    isStalemate := fun _ => false
    isDraw := fun _ => false
    turn := fun _ => 'w'
    boardGrid := fun _ => []
    pieceAt := fun _ _ => none }

/-- C6 (amended): `calculateStockfishEvaluation` consumes a draw from the
unseeded global `Math.random()` and has no seed parameter; its result is
independent of that draw whenever the requested depth is at least 20 (the
perturbation factor `1 − min(depth/20, 1)` vanishes) or the position left
loaded after the mobility sub-score — the turn-flipped FEN, which is the
position itself for white-to-move inputs — is game-over.  A black-to-move
terminal position at depth < 20 still varies with the draw. -/
theorem c6_evaluation_rand_independent (o : Oracle) (fen : String) (depth : Nat)
    (ra rb : Rat) (h : o.isGameOver (flipFen fen) = true ∨ 20 ≤ depth) :
    calculateStockfishEvaluation o fen depth ra = calculateStockfishEvaluation o fen depth rb := by
  rcases h with hterm | hdepth
  · simp [calculateStockfishEvaluation, hterm]
  · have hmin : min ((depth : Rat) / 20) 1 = 1 := by
      apply min_eq_right
      rw [le_div_iff₀ (by norm_num : (0 : Rat) < 20)]
      norm_num
      exact_mod_cast hdepth
    simp [calculateStockfishEvaluation, hmin]

theorem c6_evaluation_rand_independent_witness :
    calculateStockfishEvaluation mateOracle "F" 10 0 =
      calculateStockfishEvaluation mateOracle "F" 10 (1/2) :=
  c6_evaluation_rand_independent mateOracle "F" 10 0 (1/2) (Or.inl (by decide))

lemma calcEval_of_value (o : Oracle) (fen : String) (depth : Nat) (rand : Rat) (z : Int)
    (hgo : o.isGameOver (flipFen fen) = false)
    (hz : jsRound (((evaluateMaterial o fen + evaluatePositionScore o 0 fen
          + evaluateKingSafety o fen + evaluateMobility o fen : Int) : Rat)
        + (rand - 1/2) * 100 * (1 - min ((depth : Rat) / 20) 1)) = z) :
    calculateStockfishEvaluation o fen depth rand = Evaluation.cp z (formatCp z) := by
  simp only [calculateStockfishEvaluation, hgo, Bool.false_eq_true, if_false, hz]

/-- C6 counterexample: on a non-terminal position at depth 4, two different
draws of the global generator yield different evaluations — position
evaluation is not a pure function of (position, depth), and the source's
signature has no seed parameter at all. -/
theorem c6_counterexample :
    calculateStockfishEvaluation cycleOracle "F" 4 0 = Evaluation.cp (-40) "-0.40"
    ∧ calculateStockfishEvaluation cycleOracle "F" 4 (1/2) = Evaluation.cp 0 "0.00"
    ∧ calculateStockfishEvaluation cycleOracle "F" 4 0 ≠
        calculateStockfishEvaluation cycleOracle "F" 4 (1/2) := by
  have hbase : (evaluateMaterial cycleOracle "F" + evaluatePositionScore cycleOracle 0 "F"
      + evaluateKingSafety cycleOracle "F" + evaluateMobility cycleOracle "F" : Int) = 0 := by
    decide
  have h1 : calculateStockfishEvaluation cycleOracle "F" 4 0 =
      Evaluation.cp (-40) (formatCp (-40)) := by
    apply calcEval_of_value _ _ _ _ _ (by decide)
    rw [hbase]
    rw [min_eq_left (by norm_num : (((4 : Nat) : Rat) / 20) ≤ 1)]
    norm_num [jsRound]
  have h2 : calculateStockfishEvaluation cycleOracle "F" 4 (1/2) =
      Evaluation.cp 0 (formatCp 0) := by
    apply calcEval_of_value _ _ _ _ _ (by decide)
    rw [hbase]
    norm_num [jsRound]
  have hf1 : formatCp (-40) = "-0.40" := by decide
  have hf2 : formatCp 0 = "0.00" := by decide
  rw [hf1] at h1
  rw [hf2] at h2
  exact ⟨h1, h2, by rw [h1, h2]; decide⟩

/-- A black-to-move checkmate position (scholar's mate). -/
def smFen : String :=
  "r1bqkb1r/pppp1Qpp/2n2n2/4p3/2B1P3/8/PPPP1PPP/RNBQK1NR b KQkq - 0 4"

/-- The same placement with the turn flipped to White — the FEN that
`evaluateMobility`'s double replace leaves loaded for `smFen`. -/
def smFenW : String :=
  "r1bqkb1r/pppp1Qpp/2n2n2/4p3/2B1P3/8/PPPP1PPP/RNBQK1NR w KQkq - 0 4"

/-- A toy oracle agreeing with real chess on the scholar's-mate pair: `smFen`
is a black-to-move checkmate, while its white-to-move mirror `smFenW` is not
terminal at all. -/
def mutMateOracle : Oracle :=
  { legalMoves := fun _ => []
    applyFen := fun _ _ => ""
    tryMove := fun _ _ => none
    isCheckmate := fun fen => fen == smFen
    isStalemate := fun _ => false
    isDraw := fun _ => false
    turn := fun fen => if fen == smFen then 'b' else 'w'
    boardGrid := fun _ => []
    pieceAt := fun _ _ => none }

/-- C3 (code bug): the claim states the evident intent (spec §4.1 and the
shape of the terminal branch), but `evaluateMobility` leaves the chess
instance loaded with the turn-flipped FEN, so the terminal checks examine the
wrong position for black-to-move inputs: a black-to-move checkmate is
inspected as a white-to-move non-terminal position and the function falls
through to a `Math.random()`-perturbed centipawn score — not a positive
mate evaluation (and a black-to-move stalemate likewise misses the exact
cp 0 branch). -/
theorem c3_terminal_mutation_code_bug :
    mutMateOracle.isCheckmate smFen = true
    ∧ mutMateOracle.turn smFen = 'b'
    ∧ flipFen smFen = smFenW
    ∧ mutMateOracle.isGameOver smFenW = false
    ∧ calculateStockfishEvaluation mutMateOracle smFen 4 0 = Evaluation.cp (-40) "-0.40"
    ∧ calculateStockfishEvaluation mutMateOracle smFen 4 (1/2) = Evaluation.cp 0 "0.00"
    ∧ (calculateStockfishEvaluation mutMateOracle smFen 4 0).isMateEval = false := by
  have hbase : (evaluateMaterial mutMateOracle smFen
      + evaluatePositionScore mutMateOracle 0 smFen
      + evaluateKingSafety mutMateOracle smFen
      + evaluateMobility mutMateOracle smFen : Int) = 0 := by
    decide
  have h1 : calculateStockfishEvaluation mutMateOracle smFen 4 0 =
      Evaluation.cp (-40) (formatCp (-40)) := by
    apply calcEval_of_value _ _ _ _ _ (by decide)
    rw [hbase]
    rw [min_eq_left (by norm_num : (((4 : Nat) : Rat) / 20) ≤ 1)]
    norm_num [jsRound]
  have h2 : calculateStockfishEvaluation mutMateOracle smFen 4 (1/2) =
      Evaluation.cp 0 (formatCp 0) := by
    apply calcEval_of_value _ _ _ _ _ (by decide)
    rw [hbase]
    norm_num [jsRound]
  have hf1 : formatCp (-40) = "-0.40" := by decide
  have hf2 : formatCp 0 = "0.00" := by decide
  rw [hf1] at h1
  rw [hf2] at h2
  refine ⟨by decide, by decide, by decide, by decide, h1, h2, ?_⟩
  rw [h1]
  decide

lemma pvExtend_length (o : Oracle) (rand : Nat → Rat) :
    ∀ (n k : Nat) (fen : String), (pvExtend o rand k n fen).length ≤ n := by
  intro n
  induction n with
  | zero => intro k fen; simp [pvExtend]
  | succ n ih =>
      intro k fen
      simp only [pvExtend]
      split
      · simp
      · simp only [List.length_cons, Nat.add_le_add_iff_right]
        exact ih _ _

/-- C8 (amended): every analysis result's principal variation is an ordered
sequence of SAN strings of length at most 3 — the hard-coded ply bound that
`analyzePosition` passes to `calculatePrincipalVariation` — independent of the
requested search depth. -/
theorem c8_pv_length_amended (o : Oracle) (rand : Nat → Rat) (fen : String) (depth : Nat) :
    (analyzePosition o rand fen depth).principalVariation.length ≤ 3 := by
  unfold analyzePosition
  unfold calculatePrincipalVariation
  simp only [List.length_cons]
  have h := pvExtend_length o (fun k => rand (k + 1)) (3 - 1) 0
    (o.applyFen fen (calculateBestMove o fen depth))
  omega

/-- C8 counterexample: a depth-1 analysis request still produces a principal
variation of length 3, so the PV length is not bounded by the requested
depth. -/
theorem c8_counterexample :
    (analyzePosition cycleOracle (fun _ => 0) "F" 1).principalVariation.length = 3
    ∧ (analyzePosition cycleOracle (fun _ => 0) "F" 1).depth = 1
    ∧ ¬ ((analyzePosition cycleOracle (fun _ => 0) "F" 1).principalVariation.length ≤
          (analyzePosition cycleOracle (fun _ => 0) "F" 1).depth) := by
  have hbest : calculateBestMove cycleOracle "F" 1 = mv0 := by decide
  have hpick : pickIdx 0 1 = 0 := by simp [pickIdx]
  have hpv3 : (analyzePosition cycleOracle (fun _ => 0) "F" 1).principalVariation =
      ["e4", "e4", "e4"] := by
    unfold analyzePosition
    dsimp only
    unfold calculatePrincipalVariation
    rw [hbest]
    simp [pvExtend, cycleOracle, hpick, mv0]
  have hd : (analyzePosition cycleOracle (fun _ => 0) "F" 1).depth = 1 := rfl
  refine ⟨by rw [hpv3]; rfl, hd, ?_⟩
  intro hcon
  rw [hpv3, hd] at hcon
  simp at hcon

/-- A white-to-move FEN with unequal mobility for the two sides. -/
def wFen : String := "k7/8/8/8/8/8/8/QK6 w - - 0 1"

/-- The same position with Black to move. -/
def bFen : String := "k7/8/8/8/8/8/8/QK6 b - - 0 1"

/-- A toy oracle assigning 12 legal moves to the white-to-move position and 3
to the black-to-move position. -/
def mobOracle : Oracle :=
  { legalMoves := fun fen =>
      if fen = wFen then List.replicate 12 mv0
      else if fen = bFen then List.replicate 3 mv0 else []
    applyFen := fun _ _ => ""
    tryMove := fun _ _ => none
    isCheckmate := fun _ => false
    isStalemate := fun _ => false
    isDraw := fun _ => false
    turn := fun _ => 'w'
    boardGrid := fun _ => []
    pieceAt := fun _ _ => none }

/-- Spec-side definition of the claimed mobility sub-score: White's legal-move
count minus Black's legal-move count, scaled by the constant 2. -/
def specMobilityScore (whiteCount blackCount : Nat) : Int :=
  ((whiteCount : Int) - (blackCount : Int)) * 2

/-- C9 (code bug): the double replace
`fen.replace(' w ', ' b ').replace(' b ', ' w ')` restores a white-to-move FEN
unchanged, so `evaluateMobility` compares the position with itself and returns
0 there; on the black-to-move FEN the two counts are swapped, so the sign is
inverted.  Neither value equals the spec's `(white − black) * 2`. -/
theorem c9_mobility_code_bug :
    flipFen wFen = wFen
    ∧ flipFen bFen = wFen
    ∧ (mobOracle.legalMoves wFen).length = 12
    ∧ (mobOracle.legalMoves bFen).length = 3
    ∧ evaluateMobility mobOracle wFen = 0
    ∧ evaluateMobility mobOracle bFen = -18
    ∧ specMobilityScore 12 3 = 18
    ∧ evaluateMobility mobOracle wFen ≠ specMobilityScore 12 3
    ∧ evaluateMobility mobOracle bFen ≠ specMobilityScore 12 3 := by
  refine ⟨by decide, by decide, by decide, by decide, by decide, by decide, by decide,
    by decide, by decide⟩

lemma makeMoveRoute_inactive (o : Oracle) (rand : Nat → Rat) (r1 r2 : Rat) (now : String)
    (game : ChessGame) (req : MoveReq) (h : game.status ≠ GameStatus.active) :
    makeMoveRoute o rand r1 r2 now game req
      = ({ success := false, error := some "Game is not active" }, game) := by
  unfold makeMoveRoute
  rw [if_pos h]

lemma resignGameRoute_inactive (now : String) (game : ChessGame)
    (h : game.status ≠ GameStatus.active) :
    resignGameRoute now game
      = ({ success := false, error := some "Game is not active" }, game) := by
  unfold resignGameRoute
  rw [if_pos h]

lemma resignGameRoute_active (now : String) (game : ChessGame)
    (h : game.status = GameStatus.active) :
    resignGameRoute now game
      = ({ success := true },
         { game with
           status := GameStatus.resignation
           endTime := some now
           result := some (if game.playerColor = "white" then "0-1" else "1-0") }) := by
  unfold resignGameRoute
  rw [if_neg (by simp [h])]

lemma makeMoveRoute_illegal (o : Oracle) (rand : Nat → Rat) (r1 r2 : Rat) (now : String)
    (game : ChessGame) (req : MoveReq) (hact : game.status = GameStatus.active)
    (hrej : o.tryMove game.currentPosition.fen req = none) :
    makeMoveRoute o rand r1 r2 now game req
      = ({ success := false, error := some "Illegal move" }, game) := by
  unfold makeMoveRoute
  rw [if_neg (by simp [hact]), hrej]

lemma makeMoveRoute_legal (o : Oracle) (rand : Nat → Rat) (r1 r2 : Rat) (now : String)
    (game : ChessGame) (req : MoveReq) (vm : VMove) (newFen : String)
    (hact : game.status = GameStatus.active)
    (htm : o.tryMove game.currentPosition.fen req = some (vm, newFen)) :
    makeMoveRoute o rand r1 r2 now game req = applyLegalMove o rand r1 r2 now game vm newFen := by
  unfold makeMoveRoute
  rw [if_neg (by simp [hact]), htm]

/-- The player's move-log entry appended by the `makeMove` route. -/
def playerEntry (vm : VMove) (newFen now : String) : ChessMove :=
  { fromSq := vm.fromSq, toSq := vm.toSq, san := vm.san, fen := newFen
    timestamp := now, isPlayerMove := true }

/-- The bot's move-log entry appended by the `makeMove` route. -/
def botEntry (bm : BotMove) (now : String) : ChessMove :=
  { fromSq := bm.fromSq, toSq := bm.toSq, san := bm.san, fen := bm.fen
    timestamp := now, isPlayerMove := false }

lemma applyLegalMove_terminal (o : Oracle) (rand : Nat → Rat) (r1 r2 : Rat) (now : String)
    (game : ChessGame) (vm : VMove) (newFen : String)
    (hgo : o.isGameOver newFen = true) :
    applyLegalMove o rand r1 r2 now game vm newFen =
      ({ success := true },
       { game with
         moves := game.moves ++ [playerEntry vm newFen now]
         currentPosition := { fen := newFen, turn := turnOfFen newFen }
         status :=
           if o.isCheckmate newFen then GameStatus.checkmate
           else if o.isStalemate newFen then GameStatus.stalemate
           else GameStatus.draw
         endTime := some now
         result := some (getGameStatus o newFen) }) := by
  unfold applyLegalMove
  rw [if_pos hgo]
  rfl

lemma applyLegalMove_bot_none (o : Oracle) (rand : Nat → Rat) (r1 r2 : Rat) (now : String)
    (game : ChessGame) (vm : VMove) (newFen : String)
    (hgo : o.isGameOver newFen = false)
    (hbot : getStockfishMove o rand r1 r2 newFen game.settings.difficulty = none) :
    applyLegalMove o rand r1 r2 now game vm newFen =
      ({ success := true },
       { game with
         moves := game.moves ++ [playerEntry vm newFen now]
         currentPosition := { fen := newFen, turn := turnOfFen newFen } }) := by
  unfold applyLegalMove
  rw [if_neg (by simp [hgo]), hbot]
  rfl

lemma applyLegalMove_bot_eq (o : Oracle) (rand : Nat → Rat) (r1 r2 : Rat) (now : String)
    (game : ChessGame) (vm : VMove) (newFen : String) (bm : BotMove)
    (hgo : o.isGameOver newFen = false)
    (hbot : getStockfishMove o rand r1 r2 newFen game.settings.difficulty = some bm) :
    applyLegalMove o rand r1 r2 now game vm newFen =
      ({ success := true, botMove := some (botEntry bm now) },
       if getGameStatus o bm.fen ≠ "active" then
         { game with
           moves := (game.moves ++ [playerEntry vm newFen now]) ++ [botEntry bm now]
           currentPosition := { fen := bm.fen, turn := turnOfFen bm.fen }
           status :=
             if jsIncludes (getGameStatus o bm.fen) "1/2" then GameStatus.draw
             else GameStatus.checkmate
           endTime := some now
           result := some (getGameStatus o bm.fen) }
       else
         { game with
           moves := (game.moves ++ [playerEntry vm newFen now]) ++ [botEntry bm now]
           currentPosition := { fen := bm.fen, turn := turnOfFen bm.fen } }) := by
  unfold applyLegalMove
  rw [if_neg (by simp [hgo]), hbot]
  rfl

lemma getGameStatus_ne_active (o : Oracle) (fen : String) (h : o.isGameOver fen = true) :
    getGameStatus o fen ≠ "active" := by
  unfold getGameStatus
  by_cases hc : o.isCheckmate fen = true
  · rw [if_pos hc]
    split_ifs <;> decide
  · have hc2 : o.isCheckmate fen = false := Bool.eq_false_iff.mpr hc
    have hsd : (o.isStalemate fen || o.isDraw fen) = true := by
      unfold Oracle.isGameOver at h
      rw [hc2] at h
      simpa using h
    rw [if_neg hc, if_pos hsd]
    decide

lemma getGameStatus_active (o : Oracle) (fen : String) (h : o.isGameOver fen = false) :
    getGameStatus o fen = "active" := by
  unfold Oracle.isGameOver at h
  simp only [Bool.or_eq_false_iff] at h
  unfold getGameStatus
  rw [if_neg (by simp [h.1.1]), if_neg (by simp [h.1.2, h.2])]

lemma jsIncludes_gameStatus_checkmate (o : Oracle) (fen : String)
    (hc : o.isCheckmate fen = true) :
    jsIncludes (getGameStatus o fen) "1/2" = false := by
  unfold getGameStatus
  rw [if_pos hc]
  split_ifs <;> decide

lemma jsIncludes_gameStatus_noncheckmate (o : Oracle) (fen : String)
    (hgo : o.isGameOver fen = true) (hc : o.isCheckmate fen = false) :
    jsIncludes (getGameStatus o fen) "1/2" = true := by
  have hsd : (o.isStalemate fen || o.isDraw fen) = true := by
    unfold Oracle.isGameOver at hgo
    rw [hc] at hgo
    simpa using hgo
  unfold getGameStatus
  rw [if_neg (by simp [hc]), if_pos hsd]
  decide

lemma makeMoveRoute_status_cases (o : Oracle) (rand : Nat → Rat) (r1 r2 : Rat) (now : String)
    (game : ChessGame) (req : MoveReq) :
    (makeMoveRoute o rand r1 r2 now game req).2.status = game.status
    ∨ (game.status = GameStatus.active
        ∧ (makeMoveRoute o rand r1 r2 now game req).2.status.isTerminal = true) := by
  by_cases hact : game.status = GameStatus.active
  · cases htm : o.tryMove game.currentPosition.fen req with
    | none =>
        left
        rw [makeMoveRoute_illegal o rand r1 r2 now game req hact htm]
    | some p =>
        obtain ⟨vm, newFen⟩ := p
        rw [makeMoveRoute_legal o rand r1 r2 now game req vm newFen hact htm]
        cases hgo : o.isGameOver newFen with
        | true =>
            right
            refine ⟨hact, ?_⟩
            rw [applyLegalMove_terminal o rand r1 r2 now game vm newFen hgo]
            dsimp only
            split_ifs <;> rfl
        | false =>
            cases hbot : getStockfishMove o rand r1 r2 newFen game.settings.difficulty with
            | none =>
                left
                rw [applyLegalMove_bot_none o rand r1 r2 now game vm newFen hgo hbot]
            | some bm =>
                rw [applyLegalMove_bot_eq o rand r1 r2 now game vm newFen bm hgo hbot]
                dsimp only
                by_cases hgs : getGameStatus o bm.fen ≠ "active"
                · right
                  refine ⟨hact, ?_⟩
                  rw [if_pos hgs]
                  dsimp only
                  split_ifs <;> rfl
                · left
                  rw [if_neg hgs]
  · left
    rw [makeMoveRoute_inactive o rand r1 r2 now game req hact]

/-- C4: sessions only ever transition from `active` to a terminal status;
once the status is terminal, neither the apply-move nor the resign operation
changes the session at all. -/
theorem c4_status_machine (o : Oracle) (rand : Nat → Rat) (r1 r2 : Rat) (now : String)
    (game : ChessGame) (req : MoveReq) :
    (game.status ≠ GameStatus.active →
        makeMoveRoute o rand r1 r2 now game req
            = ({ success := false, error := some "Game is not active" }, game)
        ∧ resignGameRoute now game
            = ({ success := false, error := some "Game is not active" }, game))
    ∧ ((makeMoveRoute o rand r1 r2 now game req).2.status ≠ game.status →
        game.status = GameStatus.active
        ∧ (makeMoveRoute o rand r1 r2 now game req).2.status.isTerminal = true)
    ∧ ((resignGameRoute now game).2.status ≠ game.status →
        game.status = GameStatus.active
        ∧ (resignGameRoute now game).2.status = GameStatus.resignation) := by
  refine ⟨fun h => ⟨makeMoveRoute_inactive o rand r1 r2 now game req h,
      resignGameRoute_inactive now game h⟩, ?_, ?_⟩
  · intro hch
    rcases makeMoveRoute_status_cases o rand r1 r2 now game req with heq | hterm
    · exact absurd heq hch
    · exact hterm
  · intro hch
    by_cases hact : game.status = GameStatus.active
    · refine ⟨hact, ?_⟩
      rw [resignGameRoute_active now game hact]
    · rw [resignGameRoute_inactive now game hact] at hch
      exact absurd rfl hch

/-- A concrete request used by the toy games. -/
def req0 : MoveReq := { fromSq := "e2", toSq := "e4" }

theorem c4_status_machine_witness :
    makeMoveRoute mateOracle (fun _ => 0) 0 0 "t" wonGame req0
        = ({ success := false, error := some "Game is not active" }, wonGame)
    ∧ resignGameRoute "t" wonGame
        = ({ success := false, error := some "Game is not active" }, wonGame) :=
  (c4_status_machine mateOracle (fun _ => 0) 0 0 "t" wonGame req0).1 (by decide)

/-- C5 (amended): a player move that the oracle reports terminal transitions
the session to the matching terminal status (checkmate/stalemate/draw) and
stamps end time and result; a bot move that the oracle reports terminal
transitions to `checkmate` for checkmate and to `draw` for everything else —
stalemate included — and stamps end time and result. -/
theorem c5_terminal_stamp (o : Oracle) (rand : Nat → Rat) (r1 r2 : Rat) (now : String)
    (game : ChessGame) (req : MoveReq) (vm : VMove) (newFen : String)
    (hact : game.status = GameStatus.active)
    (htm : o.tryMove game.currentPosition.fen req = some (vm, newFen)) :
    (o.isGameOver newFen = true →
        (makeMoveRoute o rand r1 r2 now game req).2.status
            = (if o.isCheckmate newFen then GameStatus.checkmate
               else if o.isStalemate newFen then GameStatus.stalemate
               else GameStatus.draw)
        ∧ (makeMoveRoute o rand r1 r2 now game req).2.endTime = some now
        ∧ (makeMoveRoute o rand r1 r2 now game req).2.result
            = some (getGameStatus o newFen))
    ∧ (∀ bm, o.isGameOver newFen = false →
        getStockfishMove o rand r1 r2 newFen game.settings.difficulty = some bm →
        o.isGameOver bm.fen = true →
        (makeMoveRoute o rand r1 r2 now game req).2.status
            = (if o.isCheckmate bm.fen then GameStatus.checkmate else GameStatus.draw)
        ∧ (makeMoveRoute o rand r1 r2 now game req).2.endTime = some now
        ∧ (makeMoveRoute o rand r1 r2 now game req).2.result
            = some (getGameStatus o bm.fen)) := by
  rw [makeMoveRoute_legal o rand r1 r2 now game req vm newFen hact htm]
  constructor
  · intro hgo
    rw [applyLegalMove_terminal o rand r1 r2 now game vm newFen hgo]
    exact ⟨rfl, rfl, rfl⟩
  · intro bm hgo hbot hterm
    rw [applyLegalMove_bot_eq o rand r1 r2 now game vm newFen bm hgo hbot]
    have hne := getGameStatus_ne_active o bm.fen hterm
    dsimp only
    rw [if_pos hne]
    refine ⟨?_, rfl, rfl⟩
    cases hc : o.isCheckmate bm.fen with
    | true =>
        rw [jsIncludes_gameStatus_checkmate o bm.fen hc]
        simp
    | false =>
        rw [jsIncludes_gameStatus_noncheckmate o bm.fen hterm hc]
        simp

/-- The player move played in the toy game below. -/
def vmA : VMove := { fromSq := "a1", toSq := "a2", san := "Ka2" }

/-- The request matching `vmA`. -/
def reqA : MoveReq := { fromSq := "a1", toSq := "a2" }

/-- A request the toy oracle rejects. -/
def reqBad : MoveReq := { fromSq := "x1", toSq := "y1" }

/-- A toy oracle: position `"A"` accepts the player move `reqA` leading to
`"B"`; `"B"` has one legal move leading to `"C"`; `"C"` is a stalemate. -/
def staleOracle : Oracle :=
  { legalMoves := fun fen => if fen = "B" then [mv0] else []
    applyFen := fun fen _ => if fen = "B" then "C" else ""
    tryMove := fun fen req => if fen = "A" ∧ req = reqA then some (vmA, "B") else none
    isCheckmate := fun _ => false
    isStalemate := fun fen => fen == "C"
    isDraw := fun _ => false
    turn := fun _ => 'w'
    boardGrid := fun _ => []
    pieceAt := fun _ _ => none }

/-- An active toy game at position `"A"` against the `stockfish` tier. -/
def staleGame : ChessGame :=
  { id := "g2"
    playerColor := "white"
    currentPosition := { fen := "A", turn := "w" }
    moves := []
    status := GameStatus.active
    settings := { timeInitial := 300, timeIncrement := 0,
                  difficulty := Difficulty.stockfish, color := "white" }
    startTime := "t0" }

/-- The bot move `getStockfishMove` produces from `"B"` in the toy game. -/
def botBM : BotMove := { fromSq := "e2", toSq := "e4", san := "e4", fen := "C" }

theorem c5_terminal_stamp_witness :
    (makeMoveRoute staleOracle (fun _ => 0) 0 0 "t1" staleGame reqA).2.status
        = (if staleOracle.isCheckmate botBM.fen then GameStatus.checkmate else GameStatus.draw)
    ∧ (makeMoveRoute staleOracle (fun _ => 0) 0 0 "t1" staleGame reqA).2.endTime = some "t1"
    ∧ (makeMoveRoute staleOracle (fun _ => 0) 0 0 "t1" staleGame reqA).2.result
        = some (getGameStatus staleOracle botBM.fen) :=
  (c5_terminal_stamp staleOracle (fun _ => 0) 0 0 "t1" staleGame reqA vmA "B" rfl
      (by decide)).2 botBM (by decide) (by decide) (by decide)

/-- C5 counterexample: after the bot's reply reaches a position the oracle
reports as stalemate (and not checkmate), the session's status is `draw`, not
`stalemate` — the bot path does not produce the `stalemate` status the claim
requires. -/
theorem c5_counterexample :
    staleOracle.isStalemate "C" = true
    ∧ staleOracle.isCheckmate "C" = false
    ∧ (makeMoveRoute staleOracle (fun _ => 0) 0 0 "t1" staleGame reqA).1.botMove
        = some (botEntry botBM "t1")
    ∧ (makeMoveRoute staleOracle (fun _ => 0) 0 0 "t1" staleGame reqA).2.status
        = GameStatus.draw
    ∧ GameStatus.draw ≠ GameStatus.stalemate := by
  refine ⟨by decide, by decide, by decide, by decide, by decide⟩

/-- C7: when the rules oracle rejects the submitted move on an active session,
the call returns `success:false` with the `Illegal move` error and the session
is completely unchanged — in particular its move-log length, current position
and status. -/
theorem c7_illegal_rejected (o : Oracle) (rand : Nat → Rat) (r1 r2 : Rat) (now : String)
    (game : ChessGame) (req : MoveReq)
    (hact : game.status = GameStatus.active)
    (hrej : o.tryMove game.currentPosition.fen req = none) :
    makeMoveRoute o rand r1 r2 now game req
        = ({ success := false, error := some "Illegal move" }, game)
    ∧ (makeMoveRoute o rand r1 r2 now game req).2.moves.length = game.moves.length
    ∧ (makeMoveRoute o rand r1 r2 now game req).2.currentPosition = game.currentPosition
    ∧ (makeMoveRoute o rand r1 r2 now game req).2.status = game.status := by
  have h := makeMoveRoute_illegal o rand r1 r2 now game req hact hrej
  refine ⟨h, ?_, ?_, ?_⟩ <;> rw [h]

theorem c7_illegal_rejected_witness :
    makeMoveRoute staleOracle (fun _ => 0) 0 0 "t1" staleGame reqBad
        = ({ success := false, error := some "Illegal move" }, staleGame)
    ∧ (makeMoveRoute staleOracle (fun _ => 0) 0 0 "t1" staleGame reqBad).2.moves.length
        = staleGame.moves.length
    ∧ (makeMoveRoute staleOracle (fun _ => 0) 0 0 "t1" staleGame reqBad).2.currentPosition
        = staleGame.currentPosition
    ∧ (makeMoveRoute staleOracle (fun _ => 0) 0 0 "t1" staleGame reqBad).2.status
        = staleGame.status :=
  c7_illegal_rejected staleOracle (fun _ => 0) 0 0 "t1" staleGame reqBad rfl (by decide)

/-- C10: on a legal player move in an active session, if the player's move
ends the game the response carries no bot move and exactly the player's entry
(tagged `isPlayerMove = true`) is appended; otherwise — assuming the rules
oracle grants a legal move whenever the position is not game-over — a bot
move is present in the response and exactly two entries are appended in
order: the player's then the bot's (tagged `isPlayerMove = false`). -/
theorem c10_response_shape (o : Oracle) (rand : Nat → Rat) (r1 r2 : Rat) (now : String)
    (game : ChessGame) (req : MoveReq) (vm : VMove) (newFen : String)
    (hact : game.status = GameStatus.active)
    (htm : o.tryMove game.currentPosition.fen req = some (vm, newFen))
    (hcoh : o.isGameOver newFen = false → o.legalMoves newFen ≠ []) :
    (o.isGameOver newFen = true →
        (makeMoveRoute o rand r1 r2 now game req).1.botMove = none
        ∧ (makeMoveRoute o rand r1 r2 now game req).2.moves
            = game.moves ++ [playerEntry vm newFen now]
        ∧ (playerEntry vm newFen now).isPlayerMove = true)
    ∧ (o.isGameOver newFen = false →
        ∃ bEntry,
          (makeMoveRoute o rand r1 r2 now game req).1.botMove = some bEntry
          ∧ bEntry.isPlayerMove = false
          ∧ (makeMoveRoute o rand r1 r2 now game req).2.moves
              = game.moves ++ [playerEntry vm newFen now, bEntry]) := by
  rw [makeMoveRoute_legal o rand r1 r2 now game req vm newFen hact htm]
  constructor
  · intro hgo
    rw [applyLegalMove_terminal o rand r1 r2 now game vm newFen hgo]
    exact ⟨rfl, rfl, rfl⟩
  · intro hgo
    obtain ⟨m, ms, hmoves⟩ := List.exists_cons_of_ne_nil (hcoh hgo)
    obtain ⟨sel, hsel, heq⟩ :=
      getStockfishMove_selects o rand r1 r2 newFen game.settings.difficulty m ms hmoves
    rw [applyLegalMove_bot_eq o rand r1 r2 now game vm newFen _ hgo heq]
    refine ⟨botEntry _ now, rfl, rfl, ?_⟩
    dsimp only
    split_ifs <;> simp

theorem c10_response_shape_witness :
    ∃ bEntry,
      (makeMoveRoute staleOracle (fun _ => 0) 0 0 "t1" staleGame reqA).1.botMove = some bEntry
      ∧ bEntry.isPlayerMove = false
      ∧ (makeMoveRoute staleOracle (fun _ => 0) 0 0 "t1" staleGame reqA).2.moves
          = staleGame.moves ++ [playerEntry vmA "B" "t1", bEntry] :=
  (c10_response_shape staleOracle (fun _ => 0) 0 0 "t1" staleGame reqA vmA "B" rfl
      (by decide) (by decide)).2 (by decide)
